import Mathlib

/-!
Verification development for the GreenCart Logistics delivery-simulation
engine (the SimulationService in the backend).  The TypeScript service is
shallowly embedded: JavaScript numbers are modelled as exact rationals,
JS arrays as lists, and the Prisma-backed tables as immutable list
snapshots handed to the run.
-/

namespace GreenCart

deriving instance DecidableEq for Except

/-- Route congestion level, from the TrafficLevel enum of the data model. -/
inductive TrafficLevel where
  | LOW
  | MEDIUM
  | HIGH
deriving DecidableEq, Repr, Inhabited

/-- A driver row as the simulation reads it. -/
structure Driver where
  id : ℕ
  name : String
  shiftHours : ℚ
  pastWeekHours : List ℚ
  isActive : Bool
deriving DecidableEq, Repr

/-- Default driver, standing in for the JS undefined that an out-of-range
array access or a failed find would produce. -/
instance : Inhabited Driver := ⟨⟨0, "", 0, [], false⟩⟩

/-- A route row as the simulation reads it. -/
structure Route where
  id : ℕ
  distanceKm : ℚ
  trafficLevel : TrafficLevel
  baseTimeMin : ℚ
  isActive : Bool
deriving DecidableEq, Repr

instance : Inhabited Route := ⟨⟨0, 0, TrafficLevel.LOW, 0, false⟩⟩

/-- An order row as the simulation reads it.  The numeric primary key id
is distinct from the external orderId string. -/
structure Order where
  id : ℕ
  orderId : String
  valueRs : ℚ
  routeId : ℕ
  deliveryTime : String
  isActive : Bool
deriving DecidableEq, Repr

instance : Inhabited Order := ⟨⟨0, "", 0, 0, "", false⟩⟩

/-- The snapshot of the three tables a simulation run reads. -/
structure Database where
  drivers : List Driver
  orders : List Order
  routes : List Route
deriving DecidableEq, Repr

/-- The request body of runSimulation. -/
structure SimulationRequest where
  simulationName : Option String
  driverCount : ℕ
  routeStartTime : String
  maxHours : ℚ
  driverIds : Option (List ℕ)
  routeIds : Option (List ℕ)
deriving DecidableEq, Repr

/-! ### TimeCodec -/

/-- Model of the JavaScript String.prototype.split on a one-character
separator, at the level of character lists. -/
def jsSplit (sep : Char) : List Char → List (List Char)
  | [] => [[]]
  | c :: cs =>
    let r := jsSplit sep cs
    if c = sep then [] :: r
    else
      match r with
      | [] => [[c]]
      | p :: ps => (c :: p) :: ps

/-- Whether a character is one of the ASCII digits 0-9. -/
def isDigitChar (c : Char) : Bool :=
  48 ≤ c.toNat && c.toNat ≤ 57

/-- Decimal value of a list of digit characters. -/
def digitsVal (l : List Char) : ℕ :=
  l.foldl (fun a c => 10 * a + (c.toNat - 48)) 0

/-- Model of the JavaScript Number() coercion on the strings this service
feeds it: the empty string converts to 0, a nonempty all-digit string
converts to its decimal value, and any other string is NaN (none). -/
def jsNumber (l : List Char) : Option ℚ :=
  if l.isEmpty then some 0
  else if l.all isDigitChar then some (digitsVal l : ℚ)
  else none

/-- parseTime of simulationService: splits the string on a colon, converts
both parts with Number, and lets the JS || operator coerce NaN or a missing
part to 0.  The function performs no format validation and never fails. -/
def parseTime (s : String) : ℚ :=
  match (jsSplit ':' s.data).map jsNumber with
  | [] => 0
  | [h] => h.getD 0 * 60 + 0
  | h :: m :: _ => h.getD 0 * 60 + m.getD 0

/-- Truncation toward zero, the JS semantics of the % operator. -/
def jsTrunc (q : ℚ) : ℤ := if 0 ≤ q then ⌊q⌋ else ⌈q⌉

/-- The JS remainder operator on numbers: sign follows the dividend. -/
def jsMod (a b : ℚ) : ℚ := a - b * jsTrunc (a / b)

/-- Model of String.prototype.padStart(2, zero). -/
def padStart2 (s : String) : String :=
  if s.length < 2 then ⟨List.replicate (2 - s.length) '0' ++ s.data⟩ else s

/-- formatTime of simulationService: floor the hour and minute components
and zero-pad each to two characters. -/
def formatTime (minutes : ℚ) : String :=
  let hours : ℤ := ⌊minutes / 60⌋
  let mins : ℤ := ⌊jsMod minutes 60⌋
  padStart2 (toString hours) ++ ":" ++ padStart2 (toString mins)

/-! ### DeliveryTimeModel, CostModel, EfficiencyScorer -/

/-- calculateDeliveryTime: the base route time scaled by the traffic
multiplier, then by the fatigue multiplier when the last recorded day of
pastWeekHours exceeds 8 hours.  The third parameter is the clock argument
the source declares as unused. -/
def calculateDeliveryTime (route : Route) (driver : Driver) (_startTime : ℚ) : ℚ :=
  let baseTime := route.baseTimeMin
  let baseTime :=
    match route.trafficLevel with
    | TrafficLevel.LOW => baseTime * 1.0
    | TrafficLevel.MEDIUM => baseTime * 1.2
    | TrafficLevel.HIGH => baseTime * 1.5
  let yesterdayHours := driver.pastWeekHours.getD 6 0
  if yesterdayHours > 8 then baseTime * 1.3 else baseTime

/-- calculateFuelCost: 5 rupees per km, plus 2 more per km in high traffic. -/
def calculateFuelCost (route : Route) : ℚ :=
  let fuelCostPerKm : ℚ := 5
  let fuelCostPerKm := if route.trafficLevel = TrafficLevel.HIGH then fuelCostPerKm + 2 else fuelCostPerKm
  fuelCostPerKm * route.distanceKm

/-- calculateDriverEfficiency: shift utilization (capped at 1) weighted 0.7
plus consistency of the past week weighted 0.3, scaled to 100. -/
def calculateDriverEfficiency (driver : Driver) (totalTime : ℚ) : ℚ :=
  let shiftHours := driver.shiftHours
  let actualHours := totalTime / 60
  let utilization := min (actualHours / shiftHours) 1
  let avgPastHours := (driver.pastWeekHours.foldl (· + ·) 0) / 7
  let consistency := 1 - |avgPastHours - shiftHours| / shiftHours
  (utilization * 0.7 + consistency * 0.3) * 100

/-! ### AssignmentEngine -/

/-- A transient assignment: the orders given to one driver and the shared
clock value at the moment the assignment record was created. -/
structure Assignment where
  driverId : ℕ
  orderIds : List ℕ
  startTime : ℚ
deriving DecidableEq, Repr

/-- The find-or-create-then-push of assignOrdersToDrivers: append the order
to the first assignment of this driver, or create one at the end of the
list recording the current clock. -/
def addOrderToAssignments (driverId oid : ℕ) (clock : ℚ) : List Assignment → List Assignment
  | [] => [⟨driverId, [oid], clock⟩]
  | a :: as =>
    if a.driverId = driverId then { a with orderIds := a.orderIds ++ [oid] } :: as
    else a :: addOrderToAssignments driverId oid clock as

/-- One iteration of the order loop in assignOrdersToDrivers.  The state is
the cyclic driver index, the shared clock, and the assignment list. -/
def assignStep (drivers : List Driver) (routes : List Route) (startTime maxMinutes : ℚ)
    (st : ℕ × ℚ × List Assignment) (o : Order) : ℕ × ℚ × List Assignment :=
  match st with
  | (driverIndex, currentTime, assignments) =>
    let driver := drivers.getD (driverIndex % drivers.length) default
    let route := (routes.find? (fun r => r.id == o.routeId)).getD default
    let estimatedTime := calculateDeliveryTime route driver currentTime
    if currentTime + estimatedTime ≤ startTime + maxMinutes then
      (driverIndex + 1, currentTime + estimatedTime,
        addOrderToAssignments driver.id o.id currentTime assignments)
    else
      (driverIndex + 1, currentTime, assignments)

/-- assignOrdersToDrivers: a single fold over the caller-supplied order
sequence, starting from driver index 0, the shared clock at startTime, and
no assignments. -/
def assignOrdersToDrivers (drivers : List Driver) (orders : List Order) (routes : List Route)
    (startTime maxMinutes : ℚ) : List Assignment :=
  (orders.foldl (assignStep drivers routes startTime maxMinutes) (0, startTime, [])).2.2

/-! ### Orchestrator -/

/-- One row of orderResults. -/
structure OrderResult where
  orderId : String
  driverId : ℕ
  routeId : ℕ
  deliveryTime : String
  actualTime : String
  isOnTime : Bool
  penalty : ℚ
  bonus : ℚ
  fuelCost : ℚ
deriving DecidableEq, Repr

/-- One row of driverAssignments. -/
structure DriverAssignment where
  driverId : ℕ
  driverName : String
  assignedOrders : List ℕ
  totalHours : ℚ
  efficiency : ℚ
deriving DecidableEq, Repr

/-- The scalar accumulators of runSimulation. -/
structure SimTotals where
  totalProfit : ℚ
  totalFuelCost : ℚ
  totalPenalties : ℚ
  totalBonuses : ℚ
  onTimeDeliveries : ℕ
  totalDeliveries : ℕ
  totalDriverEfficiency : ℚ
deriving DecidableEq, Repr

/-- All accumulators start at zero. -/
def initTotals : SimTotals := ⟨0, 0, 0, 0, 0, 0, 0⟩

/-- State of the inner order loop of runSimulation: the running totals, the
orderResults, the assignedOrders of the current driver row, and the
driverTotalTime accumulator. -/
structure OrderStepState where
  totals : SimTotals
  orderResults : List OrderResult
  assignedOrders : List ℕ
  driverTotalTime : ℚ
deriving DecidableEq, Repr

/-- The body of the inner order loop of runSimulation, replaying one
assigned order id for the driver of the current assignment. -/
def processOrder (orders : List Order) (routes : List Route) (driver : Driver)
    (assignmentStart : ℚ) (st : OrderStepState) (oid : ℕ) : OrderStepState :=
  let order := (orders.find? (fun o => o.id == oid)).getD default
  let route := (routes.find? (fun r => r.id == order.routeId)).getD default
  let actualDeliveryTime := calculateDeliveryTime route driver (assignmentStart + st.driverTotalTime)
  let expectedTime := parseTime order.deliveryTime
  let isOnTime := decide (actualDeliveryTime ≤ expectedTime + 10)
  let penalty : ℚ := if isOnTime then 0 else 50
  let bonus : ℚ := if isOnTime && decide (order.valueRs > 1000) then order.valueRs * 0.1 else 0
  let totals := st.totals
  let totals := if isOnTime then { totals with onTimeDeliveries := totals.onTimeDeliveries + 1 } else { totals with totalPenalties := totals.totalPenalties + penalty }
  let totals := if isOnTime && decide (order.valueRs > 1000) then { totals with totalBonuses := totals.totalBonuses + bonus } else totals
  let fuelCost := calculateFuelCost route
  let totals := { totals with totalFuelCost := totals.totalFuelCost + fuelCost }
  let orderProfit := order.valueRs + bonus - penalty - fuelCost
  let totals := { totals with totalProfit := totals.totalProfit + orderProfit }
  let driverTotalTime := st.driverTotalTime + (actualDeliveryTime - (assignmentStart + st.driverTotalTime))
  let result : OrderResult :=
    { orderId := order.orderId
      driverId := driver.id
      routeId := route.id
      deliveryTime := order.deliveryTime
      actualTime := formatTime (assignmentStart + driverTotalTime)
      isOnTime := isOnTime
      penalty := penalty
      bonus := bonus
      fuelCost := fuelCost }
  let totals := { totals with totalDeliveries := totals.totalDeliveries + 1 }
  { totals := totals
    orderResults := st.orderResults ++ [result]
    assignedOrders := st.assignedOrders ++ [oid]
    driverTotalTime := driverTotalTime }

/-- State of the outer assignment loop of runSimulation. -/
structure ProcState where
  totals : SimTotals
  orderResults : List OrderResult
  driverAssignments : List DriverAssignment
deriving DecidableEq, Repr

/-- The empty outer state. -/
def initProc : ProcState := ⟨initTotals, [], []⟩

/-- The body of the outer assignment loop of runSimulation: replay the
orders of one assignment, then score the driver. -/
def processAssignment (drivers : List Driver) (orders : List Order) (routes : List Route)
    (st : ProcState) (a : Assignment) : ProcState :=
  let driver := (drivers.find? (fun d => d.id == a.driverId)).getD default
  let inner := a.orderIds.foldl (processOrder orders routes driver a.startTime)
    ⟨st.totals, st.orderResults, [], 0⟩
  let efficiency := calculateDriverEfficiency driver inner.driverTotalTime
  let driverResult : DriverAssignment :=
    { driverId := driver.id
      driverName := driver.name
      assignedOrders := inner.assignedOrders
      totalHours := inner.driverTotalTime / 60
      efficiency := efficiency }
  { totals := { inner.totals with totalDriverEfficiency := inner.totals.totalDriverEfficiency + efficiency }
    orderResults := inner.orderResults
    driverAssignments := st.driverAssignments ++ [driverResult] }

/-- The summary record. -/
structure SimulationSummary where
  totalOrders : ℕ
  totalRoutes : ℕ
  averageEfficiency : ℚ
  profitMargin : ℚ
  recommendations : List String
deriving DecidableEq, Repr

/-- Recommendation emitted when the efficiency score is low. -/
def msgEfficiency : String := "Consider optimizing driver assignments to improve efficiency"

/-- Recommendation emitted when penalties are high relative to profit. -/
def msgPenalties : String := "High penalty costs suggest need for better route planning and time management"

/-- Recommendation emitted when fuel costs are high relative to profit. -/
def msgFuel : String := "Fuel costs are high - consider route optimization and traffic avoidance"

/-- Recommendation emitted when bonuses are low relative to profit. -/
def msgBonuses : String := "Low bonus earnings - focus on high-value order prioritization"

/-- generateSummary: the profit margin and the four threshold-driven
recommendations, evaluated independently and pushed in source order. -/
def generateSummary (totalOrders totalRoutes : ℕ)
    (efficiency profit fuelCost penalties bonuses : ℚ) : SimulationSummary :=
  let recommendations :=
    (if efficiency < 70 then [msgEfficiency] else []) ++
    (if penalties > profit * 0.1 then [msgPenalties] else []) ++
    (if fuelCost > profit * 0.3 then [msgFuel] else []) ++
    (if bonuses < profit * 0.05 then [msgBonuses] else [])
  { totalOrders := totalOrders
    totalRoutes := totalRoutes
    averageEfficiency := efficiency
    profitMargin := if profit > 0 then profit / (profit + fuelCost + penalties) * 100 else 0
    recommendations := recommendations }

/-- The result record returned by runSimulation, with the simulationData
collections inlined as fields. -/
structure SimulationResult where
  totalProfit : ℚ
  efficiencyScore : ℚ
  onTimeDeliveries : ℕ
  totalDeliveries : ℕ
  fuelCost : ℚ
  penalties : ℚ
  bonuses : ℚ
  driverAssignments : List DriverAssignment
  orderResults : List OrderResult
  summary : SimulationSummary
deriving DecidableEq, Repr

/-- getAvailableDrivers: active drivers, restricted to the requested ids
when a nonempty id list is supplied. -/
def getAvailableDrivers (table : List Driver) (driverIds : Option (List ℕ)) : List Driver :=
  match driverIds with
  | some ids =>
    if 0 < ids.length then table.filter (fun d => d.isActive && ids.contains d.id)
    else table.filter (fun d => d.isActive)
  | none => table.filter (fun d => d.isActive)

/-- getAvailableOrders: active orders, restricted to the requested route
ids when a nonempty id list is supplied. -/
def getAvailableOrders (table : List Order) (routeIds : Option (List ℕ)) : List Order :=
  match routeIds with
  | some ids =>
    if 0 < ids.length then table.filter (fun o => o.isActive && ids.contains o.routeId)
    else table.filter (fun o => o.isActive)
  | none => table.filter (fun o => o.isActive)

/-- getAvailableRoutes: the active routes. -/
def getAvailableRoutes (table : List Route) : List Route :=
  table.filter (fun r => r.isActive)

/-- runSimulation: load the filtered snapshot, check it is nonempty, parse
the start time, assign orders, replay every assignment, and build the
result.  Failures are the two thrown errors of the source. -/
def runSimulation (db : Database) (request : SimulationRequest) : Except String SimulationResult :=
  let drivers := getAvailableDrivers db.drivers request.driverIds
  let orders := getAvailableOrders db.orders request.routeIds
  let routes := getAvailableRoutes db.routes
  if drivers.length = 0 then Except.error "No drivers available for simulation"
  else if orders.length = 0 then Except.error "No orders available for simulation"
  else
    let startTime := parseTime request.routeStartTime
    let maxMinutes := request.maxHours * 60
    let assignments := assignOrdersToDrivers drivers orders routes startTime maxMinutes
    let st := assignments.foldl (processAssignment drivers orders routes) initProc
    let efficiencyScore :=
      if 0 < st.driverAssignments.length
      then st.totals.totalDriverEfficiency / (st.driverAssignments.length : ℚ)
      else 0
    let summary := generateSummary orders.length routes.length efficiencyScore
      st.totals.totalProfit st.totals.totalFuelCost st.totals.totalPenalties st.totals.totalBonuses
    Except.ok
      { totalProfit := st.totals.totalProfit
        efficiencyScore := efficiencyScore
        onTimeDeliveries := st.totals.onTimeDeliveries
        totalDeliveries := st.totals.totalDeliveries
        fuelCost := st.totals.totalFuelCost
        penalties := st.totals.totalPenalties
        bonuses := st.totals.totalBonuses
        driverAssignments := st.driverAssignments
        orderResults := st.orderResults
        summary := summary }

/-- The record saveSimulation persists. -/
structure SavedSimulation where
  simulationName : Option String
  driverCount : ℕ
  routeStartTime : String
  maxHours : ℚ
  totalProfit : ℚ
  efficiencyScore : ℚ
  onTimeDeliveries : ℕ
  totalDeliveries : ℕ
  fuelCost : ℚ
  penalties : ℚ
  bonuses : ℚ
  driverAssignments : List DriverAssignment
  orderResults : List OrderResult
  summary : SimulationSummary
  createdBy : Option ℕ
deriving DecidableEq, Repr

/-- saveSimulation: copy the request audit fields and the computed results
into the persisted record. -/
def saveSimulation (request : SimulationRequest) (results : SimulationResult)
    (userId : Option ℕ) : SavedSimulation :=
  { simulationName := request.simulationName
    driverCount := request.driverCount
    routeStartTime := request.routeStartTime
    maxHours := request.maxHours
    totalProfit := results.totalProfit
    efficiencyScore := results.efficiencyScore
    onTimeDeliveries := results.onTimeDeliveries
    totalDeliveries := results.totalDeliveries
    fuelCost := results.fuelCost
    penalties := results.penalties
    bonuses := results.bonuses
    driverAssignments := results.driverAssignments
    orderResults := results.orderResults
    summary := results.summary
    createdBy := userId }

/-! ### Definitions written from the claim and spec wording, for comparison
with the embedded source -/

/-- From the claim wording for C6: the traffic multiplier table of the
delivery-time model. -/
def trafficMultiplier : TrafficLevel → ℚ
  | TrafficLevel.LOW => 1
  | TrafficLevel.MEDIUM => 1.2
  | TrafficLevel.HIGH => 1.5

/-- From the claim wording for C2: one step of the assignment pass, where
the state is only the shared clock and the assignment list, the driver is
selected by the position of the order in the input sequence, and the
capacity bound is written as routeStartTime + maxHours*60. -/
def assignSpecStep (drivers : List Driver) (routes : List Route)
    (routeStartClock maxHours : ℚ) (st : ℚ × List Assignment) (io : ℕ × Order) :
    ℚ × List Assignment :=
  match st, io with
  | (clock, assignments), (i, o) =>
    let driver := drivers.getD (i % drivers.length) default
    let est := calculateDeliveryTime ((routes.find? (fun r => r.id == o.routeId)).getD default)
      driver clock
    if clock + est ≤ routeStartClock + maxHours * 60 then
      (clock + est, addOrderToAssignments driver.id o.id clock assignments)
    else (clock, assignments)

/-- From the claim wording for C2: the whole one-pass assignment over the
position-indexed order sequence, the single clock starting at the parsed
routeStartTime. -/
def assignSpec (drivers : List Driver) (orders : List Order) (routes : List Route)
    (routeStartClock maxHours : ℚ) : List Assignment :=
  (orders.enum.foldl (assignSpecStep drivers routes routeStartClock maxHours)
    (routeStartClock, [])).2

/-- The hour alternative of the spec time regex: one digit, or 0/1 followed
by a digit, or 2 followed by 0-3. -/
def isHourChars : List Char → Bool
  | [h] => isDigitChar h
  | [h1, h2] =>
    ((48 ≤ h1.toNat && h1.toNat ≤ 49) && isDigitChar h2)
      || (h1.toNat = 50 && (48 ≤ h2.toNat && h2.toNat ≤ 51))
  | _ => false

/-- The minute part of the spec time regex: 0-5 followed by a digit. -/
def isMinuteChars : List Char → Bool
  | [m1, m2] => (48 ≤ m1.toNat && m1.toNat ≤ 53) && isDigitChar m2
  | _ => false

/-- Transcription of the spec time regex anchored on the whole string:
exactly one colon, a valid hour part before it and a valid minute part
after it. -/
def matchesTimePattern (s : String) : Bool :=
  match jsSplit ':' s.data with
  | [h, m] => isHourChars h && isMinuteChars m
  | _ => false

/-- Modelled from the spec: the validating parse the spec ascribes to
TimeCodec, returning none exactly where the spec demands a FormatError.
The source parseTime has no such failure path. -/
def timeVal (s : String) : Option ℚ :=
  match jsSplit ':' s.data with
  | [h, m] =>
    if isHourChars h && isMinuteChars m then
      some ((digitsVal h : ℚ) * 60 + (digitsVal m : ℚ))
    else none
  | _ => none

/-- From the claim wording for C1: the total minutes of one driver as the
sum of the clock-independent durations over the assigned orders. -/
def specTotalMinutes (orders : List Order) (routes : List Route) (driver : Driver)
    (a : Assignment) : ℚ :=
  (a.orderIds.map (fun oid =>
    let order := (orders.find? (fun o => o.id == oid)).getD default
    calculateDeliveryTime ((routes.find? (fun r => r.id == order.routeId)).getD default)
      driver 0)).sum

/-- All order ids recorded in a list of assignments, in list order. -/
def assignedIds (as : List Assignment) : List ℕ :=
  (as.map Assignment.orderIds).flatten

/-- The shared clock after the assignment pass has consumed a prefix of the
order sequence, starting at driver index i and clock value clock. -/
def clockAfter (drivers : List Driver) (routes : List Route) (startTime maxMinutes : ℚ) :
    List Order → ℕ → ℚ → ℚ
  | [], _, clock => clock
  | o :: os, i, clock =>
    let driver := drivers.getD (i % drivers.length) default
    let est := calculateDeliveryTime ((routes.find? (fun r => r.id == o.routeId)).getD default)
      driver clock
    if clock + est ≤ startTime + maxMinutes then
      clockAfter drivers routes startTime maxMinutes os (i + 1) (clock + est)
    else
      clockAfter drivers routes startTime maxMinutes os (i + 1) clock

/-- The ids of the orders the assignment pass places, in placement order,
starting from driver index i and clock value clock. -/
def placedIds (drivers : List Driver) (routes : List Route) (startTime maxMinutes : ℚ) :
    List Order → ℕ → ℚ → List ℕ
  | [], _, _ => []
  | o :: os, i, clock =>
    let driver := drivers.getD (i % drivers.length) default
    let est := calculateDeliveryTime ((routes.find? (fun r => r.id == o.routeId)).getD default)
      driver clock
    if clock + est ≤ startTime + maxMinutes then
      o.id :: placedIds drivers routes startTime maxMinutes os (i + 1) (clock + est)
    else
      placedIds drivers routes startTime maxMinutes os (i + 1) clock

/-- The capacity check of the assignment pass for the order that follows
the prefix pre of the input sequence. -/
def placesOrder (drivers : List Driver) (routes : List Route) (startTime maxMinutes : ℚ)
    (pre : List Order) (o : Order) : Prop :=
  let clock := clockAfter drivers routes startTime maxMinutes pre 0 startTime
  let driver := drivers.getD (pre.length % drivers.length) default
  let est := calculateDeliveryTime ((routes.find? (fun r => r.id == o.routeId)).getD default)
    driver clock
  clock + est ≤ startTime + maxMinutes

instance (drivers : List Driver) (routes : List Route) (startTime maxMinutes : ℚ)
    (pre : List Order) (o : Order) :
    Decidable (placesOrder drivers routes startTime maxMinutes pre o) := by
  unfold placesOrder
  infer_instance

/-- The total order value the run places, read back from the order table by
id: the sum of valueRs over a list of order ids. -/
def ordersValueSum (orders : List Order) (ids : List ℕ) : ℚ :=
  (ids.map (fun oid => ((orders.find? (fun o => o.id == oid)).getD default).valueRs)).sum

/-- The per-row cost-model contract of claim C3: the row was computed for a
driver of the run carrying the recorded driver id and an order of the
snapshot carrying the recorded orderId; the on-time flag compares the
clock-free duration of section 4.2 with the parsed expected time plus the
10-minute grace, and penalty and bonus follow the three cases. -/
def orderResultMatchesCostModel (drivers : List Driver) (orders : List Order)
    (routes : List Route) (r : OrderResult) : Prop :=
  ∃ d, d ∈ drivers ∧ d.id = r.driverId ∧
    ∃ o, o ∈ orders ∧ o.orderId = r.orderId ∧ o.deliveryTime = r.deliveryTime ∧
      r.isOnTime = decide (calculateDeliveryTime
          ((routes.find? (fun rt => rt.id == o.routeId)).getD default) d 0
        ≤ parseTime o.deliveryTime + 10)
      ∧ (r.isOnTime = false → r.penalty = 50 ∧ r.bonus = 0)
      ∧ (r.isOnTime = true → o.valueRs > 1000 → r.bonus = o.valueRs * 0.1 ∧ r.penalty = 0)
      ∧ (r.isOnTime = true → ¬o.valueRs > 1000 → r.penalty = 0 ∧ r.bonus = 0)

/-! ### Concrete scenarios used by the witnesses -/

/-- The default result, standing in for an unreachable error branch when a
concrete run is known to succeed. -/
instance : Inhabited SimulationResult :=
  ⟨⟨0, 0, 0, 0, 0, 0, 0, [], [], ⟨0, 0, 0, 0, []⟩⟩⟩

/-- Extract the payload of a run known to succeed. -/
def okOr : Except String SimulationResult → SimulationResult
  | Except.ok r => r
  | Except.error _ => default

/-- Scenario driver with a flat past week. -/
def d1 : Driver := ⟨1, "D1", 8, [8, 8, 8, 8, 8, 8, 8], true⟩

/-- Scenario driver who worked 10 hours yesterday. -/
def d2 : Driver := ⟨2, "D2", 8, [8, 8, 8, 8, 8, 8, 10], true⟩

/-- Scenario route: 10 km, low traffic, 30 base minutes. -/
def r1 : Route := ⟨1, 10, TrafficLevel.LOW, 30, true⟩

/-- Scenario route: 10 km, high traffic, 35 base minutes. -/
def rH : Route := ⟨2, 10, TrafficLevel.HIGH, 35, true⟩

/-- Scenario order worth 1200 on route 1. -/
def o1 : Order := ⟨1, "O1", 1200, 1, "09:00", true⟩

/-- Scenario order worth 600 on route 1. -/
def o2 : Order := ⟨2, "O2", 600, 1, "09:10", true⟩

/-- Scenario order worth 1500 on route 1. -/
def o3 : Order := ⟨3, "O3", 1500, 1, "09:20", true⟩

/-- Scenario order worth 700 on the high-traffic route. -/
def oH : Order := ⟨4, "O4", 700, 2, "09:00", true⟩

/-- The end-to-end scenario of spec section 8. -/
def db8 : Database := ⟨[d1, d2], [o1, o2, o3], [r1]⟩

/-- The request of the end-to-end scenario of spec section 8. -/
def req8 : SimulationRequest := ⟨some "demo", 2, "08:00", 8, none, none⟩

/-- A one-driver one-order scenario. -/
def dbA : Database := ⟨[d1], [o1], [r1]⟩

/-- The request of the one-driver one-order scenario. -/
def reqA : SimulationRequest := ⟨none, 1, "08:00", 8, none, none⟩

/-- A scenario whose second order does not fit the one-hour window. -/
def dbC : Database := ⟨[d1], [o1, oH], [r1, rH]⟩

/-- The request of the scenario with a dropped order. -/
def reqC : SimulationRequest := ⟨none, 1, "08:00", 1, none, none⟩

/-! ### Helper lemmas -/

/-- Splitting never yields an empty part list. -/
theorem jsSplit_ne_nil (sep : Char) (l : List Char) : jsSplit sep l ≠ [] := by
  cases l with
  | nil => simp [jsSplit]
  | cons c cs =>
    simp only [jsSplit]
    by_cases h : c = sep
    · simp [h]
    · simp only [if_neg h]
      cases jsSplit sep cs <;> simp

/-- A one-part split returns the input itself. -/
theorem jsSplit_eq_single (sep : Char) (l : List Char) :
    ∀ m, jsSplit sep l = [m] → l = m := by
  induction l with
  | nil =>
    intro m h
    simp only [jsSplit] at h
    exact (List.cons.inj h).1
  | cons c cs ih =>
    intro m h
    simp only [jsSplit] at h
    by_cases hc : c = sep
    · rw [if_pos hc] at h
      obtain ⟨-, h2⟩ := List.cons.inj h
      exact absurd h2 (jsSplit_ne_nil sep cs)
    · rw [if_neg hc] at h
      rcases hr : jsSplit sep cs with - | ⟨p, ps⟩
      · exact absurd hr (jsSplit_ne_nil sep cs)
      · rw [hr] at h
        obtain ⟨h1, h2⟩ := List.cons.inj h
        subst h1
        obtain rfl : ps = [] := h2
        obtain rfl : cs = p := ih p (by rw [hr])
        rfl

/-- A two-part split recovers the input around one separator. -/
theorem jsSplit_eq_pair (sep : Char) (l : List Char) :
    ∀ h m, jsSplit sep l = [h, m] → l = h ++ sep :: m := by
  induction l with
  | nil => intro h m hs; simp [jsSplit] at hs
  | cons c cs ih =>
    intro h m hs
    simp only [jsSplit] at hs
    by_cases hc : c = sep
    · rw [if_pos hc] at hs
      obtain ⟨h1, h2⟩ := List.cons.inj hs
      subst h1
      obtain rfl : cs = m := jsSplit_eq_single sep cs m h2
      simp [hc]
    · rw [if_neg hc] at hs
      rcases hr : jsSplit sep cs with - | ⟨p, ps⟩
      · exact absurd hr (jsSplit_ne_nil sep cs)
      · rw [hr] at hs
        obtain ⟨h1, h2⟩ := List.cons.inj hs
        subst h1
        have : cs = p ++ sep :: m := ih p m (by rw [hr, h2])
        rw [this]
        simp

/-- Number converts a nonempty all-digit string to its decimal value. -/
theorem jsNumber_digits (l : List Char) (hne : l.isEmpty = false)
    (hd : l.all isDigitChar = true) : jsNumber l = some ((digitsVal l : ℕ) : ℚ) := by
  simp [jsNumber, hne, hd]

/-- A valid hour part is a nonempty digit string. -/
theorem isHourChars_digits (l : List Char) (h : isHourChars l = true) :
    l.isEmpty = false ∧ l.all isDigitChar = true := by
  match l with
  | [c] => simpa [isHourChars] using h
  | [c1, c2] =>
    simp [isHourChars, isDigitChar] at h ⊢
    omega
  | [] => simp [isHourChars] at h
  | c1 :: c2 :: c3 :: rest => simp [isHourChars] at h

/-- A valid minute part is a nonempty digit string. -/
theorem isMinuteChars_digits (l : List Char) (h : isMinuteChars l = true) :
    l.isEmpty = false ∧ l.all isDigitChar = true := by
  match l with
  | [c1, c2] =>
    simp [isMinuteChars, isDigitChar] at h ⊢
    omega
  | [] => simp [isMinuteChars] at h
  | [c] => simp [isMinuteChars] at h
  | c1 :: c2 :: c3 :: rest => simp [isMinuteChars] at h

/-- The value of a two-digit-character list. -/
theorem digitsVal_pair (c1 c2 : Char) :
    digitsVal [c1, c2] = 10 * (c1.toNat - 48) + (c2.toNat - 48) := by
  simp only [digitsVal, List.foldl_cons, List.foldl_nil]
  omega

/-- The assigned ids of a cons decompose as an append. -/
theorem assignedIds_cons (a : Assignment) (as : List Assignment) :
    assignedIds (a :: as) = a.orderIds ++ assignedIds as := by
  simp [assignedIds]

/-- Membership in the ids of an updated assignment list. -/
theorem mem_assignedIds_addOrder (did oid : ℕ) (clock : ℚ) (as : List Assignment) (x : ℕ) :
    x ∈ assignedIds (addOrderToAssignments did oid clock as)
      ↔ x = oid ∨ x ∈ assignedIds as := by
  induction as with
  | nil => simp [addOrderToAssignments, assignedIds]
  | cons a as ih =>
    simp only [addOrderToAssignments]
    by_cases h : a.driverId = did
    · rw [if_pos h, assignedIds_cons, assignedIds_cons]
      simp only [List.mem_append, List.mem_singleton]
      tauto
    · rw [if_neg h, assignedIds_cons, assignedIds_cons]
      simp only [List.mem_append, ih]
      tauto

/-- An id of one assignment is among the assigned ids of the list. -/
theorem mem_assignedIds_of_mem {x : ℕ} {a : Assignment} {as : List Assignment}
    (hx : x ∈ a.orderIds) (ha : a ∈ as) : x ∈ assignedIds as := by
  simp only [assignedIds, List.mem_flatten, List.mem_map]
  exact ⟨a.orderIds, ⟨a, ha, rfl⟩, hx⟩

/-- The clock component of the assignment fold. -/
theorem assign_foldl_clock (drivers : List Driver) (routes : List Route)
    (startTime maxMinutes : ℚ) (os : List Order) :
    ∀ (i : ℕ) (clock : ℚ) (acc : List Assignment),
      (os.foldl (assignStep drivers routes startTime maxMinutes) (i, clock, acc)).2.1
        = clockAfter drivers routes startTime maxMinutes os i clock := by
  induction os with
  | nil => intro i clock acc; rfl
  | cons o os ih =>
    intro i clock acc
    rw [List.foldl_cons]
    simp only [assignStep, clockAfter]
    by_cases hc : clock + calculateDeliveryTime
        ((routes.find? (fun r => r.id == o.routeId)).getD default)
        (drivers.getD (i % drivers.length) default) clock ≤ startTime + maxMinutes
    · rw [if_pos hc, if_pos hc]
      exact ih _ _ _
    · rw [if_neg hc, if_neg hc]
      exact ih _ _ _

/-- Membership in the assigned ids produced by the assignment fold. -/
theorem mem_assignedIds_foldl (drivers : List Driver) (routes : List Route)
    (startTime maxMinutes : ℚ) (os : List Order) :
    ∀ (i : ℕ) (clock : ℚ) (acc : List Assignment) (x : ℕ),
      x ∈ assignedIds ((os.foldl (assignStep drivers routes startTime maxMinutes)
          (i, clock, acc)).2.2)
        ↔ x ∈ assignedIds acc ∨ x ∈ placedIds drivers routes startTime maxMinutes os i clock := by
  induction os with
  | nil => intro i clock acc x; simp [placedIds]
  | cons o os ih =>
    intro i clock acc x
    rw [List.foldl_cons]
    simp only [assignStep, placedIds]
    by_cases hc : clock + calculateDeliveryTime
        ((routes.find? (fun r => r.id == o.routeId)).getD default)
        (drivers.getD (i % drivers.length) default) clock ≤ startTime + maxMinutes
    · rw [if_pos hc, if_pos hc, ih, mem_assignedIds_addOrder]
      simp only [List.mem_cons]
      tauto
    · rw [if_neg hc, if_neg hc, ih]

/-- Every placed id is the id of some input order. -/
theorem placedIds_subset (drivers : List Driver) (routes : List Route)
    (startTime maxMinutes : ℚ) (os : List Order) :
    ∀ (i : ℕ) (clock : ℚ) (x : ℕ),
      x ∈ placedIds drivers routes startTime maxMinutes os i clock → x ∈ os.map Order.id := by
  induction os with
  | nil => intro i clock x h; simp [placedIds] at h
  | cons o os ih =>
    intro i clock x h
    simp only [placedIds] at h
    rw [List.map_cons]
    by_cases hc : clock + calculateDeliveryTime
        ((routes.find? (fun r => r.id == o.routeId)).getD default)
        (drivers.getD (i % drivers.length) default) clock ≤ startTime + maxMinutes
    · rw [if_pos hc] at h
      rcases List.mem_cons.mp h with h | h
      · simp [h]
      · exact List.mem_cons_of_mem _ (ih _ _ _ h)
    · rw [if_neg hc] at h
      exact List.mem_cons_of_mem _ (ih _ _ _ h)

/-- Splitting the placed ids around a prefix of the input sequence. -/
theorem placedIds_append (drivers : List Driver) (routes : List Route)
    (startTime maxMinutes : ℚ) (l1 l2 : List Order) :
    ∀ (i : ℕ) (clock : ℚ),
      placedIds drivers routes startTime maxMinutes (l1 ++ l2) i clock
        = placedIds drivers routes startTime maxMinutes l1 i clock
          ++ placedIds drivers routes startTime maxMinutes l2 (i + l1.length)
              (clockAfter drivers routes startTime maxMinutes l1 i clock) := by
  induction l1 with
  | nil => intro i clock; simp [placedIds, clockAfter]
  | cons o os ih =>
    intro i clock
    rw [List.cons_append]
    simp only [placedIds, clockAfter, List.length_cons]
    have e : i + 1 + os.length = i + (os.length + 1) := by omega
    by_cases hc : clock + calculateDeliveryTime
        ((routes.find? (fun r => r.id == o.routeId)).getD default)
        (drivers.getD (i % drivers.length) default) clock ≤ startTime + maxMinutes
    · rw [if_pos hc, if_pos hc, if_pos hc, ih, ← e]
      rfl
    · rw [if_neg hc, if_neg hc, if_neg hc, ih, ← e]

/-! ### C2: the assignment engine -/

/-- The source fold and the claim-side indexed fold walk in lockstep. -/
theorem assign_foldl_eq_spec (drivers : List Driver) (routes : List Route)
    (startClock maxHours : ℚ) (os : List Order) :
    ∀ (i : ℕ) (clock : ℚ) (acc : List Assignment),
      (os.foldl (assignStep drivers routes startClock (maxHours * 60)) (i, clock, acc)).2
        = (os.enumFrom i).foldl (assignSpecStep drivers routes startClock maxHours) (clock, acc) := by
  induction os with
  | nil => intro i clock acc; rfl
  | cons o os ih =>
    intro i clock acc
    rw [List.foldl_cons, List.enumFrom, List.foldl_cons]
    show (os.foldl _ (assignStep drivers routes startClock (maxHours * 60) (i, clock, acc) o)).2
      = (os.enumFrom (i + 1)).foldl _
          (assignSpecStep drivers routes startClock maxHours (clock, acc) (i, o))
    simp only [assignStep, assignSpecStep]
    by_cases hc : clock + calculateDeliveryTime
        ((routes.find? (fun r => r.id == o.routeId)).getD default)
        (drivers.getD (i % drivers.length) default) clock ≤ startClock + maxHours * 60
    · rw [if_pos hc, if_pos hc]
      exact ih (i + 1) _ _
    · rw [if_neg hc, if_neg hc]
      exact ih (i + 1) _ _

/-- C2: the assignment engine runs a single pass over the caller-supplied
order sequence with one shared clock starting at the parsed routeStartTime,
selects the driver of the i-th order by i modulo the driver count, places
the order and advances the clock by the estimated duration exactly when the
shared clock plus that duration stays within routeStartTime plus
maxHours*60, records the current clock at first creation of an assignment,
and advances the driver index on every order. -/
theorem c2_assignment_engine (drivers : List Driver) (orders : List Order)
    (routes : List Route) (routeStartTime : String) (maxHours : ℚ) :
    assignOrdersToDrivers drivers orders routes (parseTime routeStartTime) (maxHours * 60)
      = assignSpec drivers orders routes (parseTime routeStartTime) maxHours := by
  unfold assignOrdersToDrivers assignSpec
  rw [show orders.enum = orders.enumFrom 0 from rfl,
    ← assign_foldl_eq_spec drivers routes (parseTime routeStartTime) maxHours orders 0
      (parseTime routeStartTime) []]

/-! ### C4: parseTime performs no validation -/

section RatEval

attribute [local semireducible] Rat.add Rat.mul Rat.sub Rat.inv Rat.ofScientific

/-- C4 counterexample: the string xx:yy fails the time pattern, yet
parseTime returns the number 0 for it instead of failing. -/
theorem c4_counterexample :
    matchesTimePattern "xx:yy" = false ∧ timeVal "xx:yy" = none ∧ parseTime "xx:yy" = 0 := by
  decide

end RatEval

/-- C4 amended: parseTime never fails; on a string the spec pattern
accepts it returns hours*60+minutes, and on any other string it still
returns a number, coercing unparsable components to 0. -/
theorem c4_parseTime_total (s : String) (q : ℚ) (h : timeVal s = some q) :
    parseTime s = q := by
  unfold timeVal at h
  rcases hs : jsSplit ':' s.data with - | ⟨hp, - | ⟨mp, - | ⟨x, rest⟩⟩⟩ <;> rw [hs] at h
  · exact absurd h (by simp)
  · exact absurd h (by simp)
  · have h' : (if (isHourChars hp && isMinuteChars mp) = true
        then some ((digitsVal hp : ℚ) * 60 + (digitsVal mp : ℚ)) else none) = some q := h
    by_cases hv : (isHourChars hp && isMinuteChars mp) = true
    · rw [if_pos hv] at h'
      obtain ⟨hh, hm⟩ := Bool.and_eq_true_iff.mp hv
      obtain ⟨hne1, hd1⟩ := isHourChars_digits hp hh
      obtain ⟨hne2, hd2⟩ := isMinuteChars_digits mp hm
      obtain rfl : (digitsVal hp : ℚ) * 60 + (digitsVal mp : ℚ) = q := by
        injection h'
      unfold parseTime
      rw [hs, List.map_cons, List.map_cons, List.map_nil,
        jsNumber_digits hp hne1 hd1, jsNumber_digits mp hne2 hd2]
      simp
    · rw [if_neg hv] at h'
      exact absurd h' (by simp)
  · exact absurd h (by simp)

section RatEval2

attribute [local semireducible] Rat.add Rat.mul Rat.sub Rat.inv Rat.ofScientific

/-- C4 witness: a concrete valid string parsed through the agreement. -/
theorem c4_witness : parseTime "08:00" = 480 :=
  c4_parseTime_total "08:00" 480 (by decide)

end RatEval2

/-! ### C5: the round trip -/

section RatEval3

attribute [local semireducible] Rat.add Rat.mul Rat.sub Rat.inv Rat.ofScientific

/-- C5 counterexample: 9:30 is accepted by the spec time pattern, but the
round trip pads the hour and returns 09:30. -/
theorem c5_counterexample :
    matchesTimePattern "9:30" = true ∧ formatTime (parseTime "9:30") ≠ "9:30" := by
  decide

end RatEval3

/-- Zero-padding the textual form of a number below 60 yields its two
decimal digit characters. -/
theorem padStart2_toString_two_digits :
    ∀ n : ℕ, n < 60 → (padStart2 (toString ((n : ℕ) : ℤ))).data
      = [Char.ofNat (48 + n / 10), Char.ofNat (48 + n % 10)] := by
  decide

/-- The hour component recovered by formatTime. -/
theorem floor_hour (hh mm : ℕ) (h : mm < 60) :
    (⌊((hh : ℚ) * 60 + (mm : ℚ)) / 60⌋ : ℤ) = hh := by
  rw [Int.floor_eq_iff]
  constructor
  · rw [le_div_iff (by norm_num : (0 : ℚ) < 60)]
    push_cast
    have : (0 : ℚ) ≤ mm := Nat.cast_nonneg mm
    linarith
  · rw [div_lt_iff (by norm_num : (0 : ℚ) < 60)]
    push_cast
    have : (mm : ℚ) < 60 := by exact_mod_cast h
    linarith

/-- The minute component recovered by formatTime. -/
theorem jsMod_hour (hh mm : ℕ) (h : mm < 60) :
    jsMod ((hh : ℚ) * 60 + (mm : ℚ)) 60 = (mm : ℚ) := by
  unfold jsMod jsTrunc
  rw [if_pos (by positivity), floor_hour hh mm h]
  push_cast
  ring

/-- formatTime on an in-range number of minutes renders the padded hour and
minute components. -/
theorem formatTime_hm (hh mm : ℕ) (h : mm < 60) :
    formatTime ((hh : ℚ) * 60 + (mm : ℚ))
      = padStart2 (toString ((hh : ℕ) : ℤ)) ++ ":" ++ padStart2 (toString ((mm : ℕ) : ℤ)) := by
  unfold formatTime
  rw [floor_hour hh mm h, jsMod_hour hh mm h, Int.floor_natCast]

/-! ### C5: the round trip on two-digit hours -/

/-- C5 amended: formatTime inverts parseTime on every string the spec time
pattern accepts whose hour part has two digits (length-5 strings); the
round trip fails only on the one-digit-hour strings the pattern also
accepts, as the counterexample shows. -/
theorem c5_roundtrip_two_digit_hour (s : String)
    (hm : matchesTimePattern s = true) (hl : s.length = 5) :
    formatTime (parseTime s) = s := by
  unfold matchesTimePattern at hm
  rcases hs : jsSplit ':' s.data with - | ⟨hp, - | ⟨mp, - | ⟨x, rest⟩⟩⟩ <;> rw [hs] at hm
  · exact absurd hm (by simp)
  · exact absurd hm (by simp)
  · have hm' : (isHourChars hp && isMinuteChars mp) = true := hm
    obtain ⟨hhb, hmb⟩ := Bool.and_eq_true_iff.mp hm'
    obtain ⟨hne1, hd1⟩ := isHourChars_digits hp hhb
    obtain ⟨hne2, hd2⟩ := isMinuteChars_digits mp hmb
    have hdata : s.data = hp ++ ':' :: mp := jsSplit_eq_pair ':' s.data hp mp hs
    have hlen : s.data.length = 5 := hl
    rcases mp with - | ⟨m1, - | ⟨m2, - | ⟨m3, mrest⟩⟩⟩
    · exact absurd hmb (by simp [isMinuteChars])
    · exact absurd hmb (by simp [isMinuteChars])
    swap
    · exact absurd hmb (by simp [isMinuteChars])
    rcases hp with - | ⟨h1, - | ⟨h2, - | ⟨h3, hrest⟩⟩⟩
    · exact absurd hhb (by simp [isHourChars])
    · rw [hdata] at hlen
      simp at hlen
    swap
    · rw [hdata] at hlen
      simp at hlen <;> omega
    simp only [isHourChars, isDigitChar, Bool.or_eq_true, Bool.and_eq_true,
      decide_eq_true_eq] at hhb
    simp only [isMinuteChars, isDigitChar, Bool.and_eq_true, decide_eq_true_eq] at hmb
    have hpt : parseTime s
        = ((digitsVal [h1, h2] : ℕ) : ℚ) * 60 + ((digitsVal [m1, m2] : ℕ) : ℚ) := by
      unfold parseTime
      rw [hs, List.map_cons, List.map_cons, List.map_nil,
        jsNumber_digits _ hne1 hd1, jsNumber_digits _ hne2 hd2]
      simp
    have hhval : digitsVal [h1, h2] = 10 * (h1.toNat - 48) + (h2.toNat - 48) :=
      digitsVal_pair h1 h2
    have hmval : digitsVal [m1, m2] = 10 * (m1.toNat - 48) + (m2.toNat - 48) :=
      digitsVal_pair m1 m2
    have hhlt : digitsVal [h1, h2] < 60 := by rw [hhval]; omega
    have hmlt : digitsVal [m1, m2] < 60 := by rw [hmval]; omega
    rw [hpt, formatTime_hm _ _ hmlt]
    apply String.ext
    rw [String.data_append, String.data_append,
      padStart2_toString_two_digits _ hhlt, padStart2_toString_two_digits _ hmlt, hdata]
    have e1 : digitsVal [h1, h2] / 10 = h1.toNat - 48 := by omega
    have e2 : digitsVal [h1, h2] % 10 = h2.toNat - 48 := by omega
    have e3 : digitsVal [m1, m2] / 10 = m1.toNat - 48 := by omega
    have e4 : digitsVal [m1, m2] % 10 = m2.toNat - 48 := by omega
    rw [e1, e2, e3, e4,
      show 48 + (h1.toNat - 48) = h1.toNat by omega,
      show 48 + (h2.toNat - 48) = h2.toNat by omega,
      show 48 + (m1.toNat - 48) = m1.toNat by omega,
      show 48 + (m2.toNat - 48) = m2.toNat by omega,
      Char.ofNat_toNat, Char.ofNat_toNat, Char.ofNat_toNat, Char.ofNat_toNat]
    rfl
  · exact absurd hm (by simp)

/-- C5 witness: the round trip at the concrete two-digit string 09:30. -/
theorem c5_witness : formatTime (parseTime "09:30") = "09:30" :=
  c5_roundtrip_two_digit_hour "09:30" (by decide) (by decide)

/-! ### C6: the delivery-time model -/

/-- C6: the delivery duration is the base route time scaled by the traffic
multiplier and by 1.3 exactly when the driver worked more than 8 hours on
the last recorded day, and it does not depend on the clock argument. -/
theorem c6_calculateDeliveryTime (route : Route) (driver : Driver) (t t1 t2 : ℚ) :
    calculateDeliveryTime route driver t
      = route.baseTimeMin * trafficMultiplier route.trafficLevel *
        (if driver.pastWeekHours.getD 6 0 > 8 then 1.3 else 1)
    ∧ calculateDeliveryTime route driver t1 = calculateDeliveryTime route driver t2 := by
  refine ⟨?_, rfl⟩
  cases hl : route.trafficLevel <;>
    by_cases hf : driver.pastWeekHours.getD 6 0 > 8 <;>
      simp [calculateDeliveryTime, trafficMultiplier, hl, hf] <;> ring

/-! ### C8: the summary generator -/

/-- C8: the profit margin formula of generateSummary, and the fact that the
recommendation list contains exactly the messages of the independently
evaluated threshold rules that fire. -/
theorem c8_generateSummary (totalOrders totalRoutes : ℕ) (e p f pen b : ℚ) :
    (generateSummary totalOrders totalRoutes e p f pen b).profitMargin
      = (if p > 0 then p / (p + f + pen) * 100 else 0)
    ∧ ∀ msg, msg ∈ (generateSummary totalOrders totalRoutes e p f pen b).recommendations ↔
        ((msg = msgEfficiency ∧ e < 70) ∨ (msg = msgPenalties ∧ pen > 0.1 * p) ∨
          (msg = msgFuel ∧ f > 0.3 * p) ∨ (msg = msgBonuses ∧ b < 0.05 * p)) := by
  constructor
  · rfl
  · intro msg
    rw [mul_comm (0.1 : ℚ) p, mul_comm (0.3 : ℚ) p, mul_comm (0.05 : ℚ) p]
    by_cases h1 : e < 70 <;> by_cases h2 : pen > p * 0.1 <;> by_cases h3 : f > p * 0.3 <;>
      by_cases h4 : b < p * 0.05 <;>
        simp [generateSummary, h1, h2, h3, h4] <;> tauto

/-! ### C9: driverCount does not influence the computation -/

/-- C9: two requests identical except for driverCount produce the same
simulation result on the same snapshot; driverCount is only copied into
the persisted record. -/
theorem c9_driverCount_audit_only (db : Database) (r : SimulationRequest) (c : ℕ)
    (res : SimulationResult) (uid : Option ℕ) :
    runSimulation db { r with driverCount := c } = runSimulation db r
    ∧ (saveSimulation { r with driverCount := c } res uid).driverCount = c := by
  cases r
  exact ⟨rfl, rfl⟩

/-! ### C1: the efficiency input is not the sum of durations -/

section RatEvalC1

attribute [local semireducible] Rat.add Rat.mul Rat.sub Rat.inv Rat.ofScientific

/-- C1: in the one-driver one-order scenario the engine assigns order 1 to
driver 1 with assignment start clock 480; the sum of the durations of that
assignment is 30 minutes, and the claimed efficiency formula on 30 minutes
gives 275/8, yet the run reports the efficiency -285/8, because the
accumulator feeding calculateDriverEfficiency ends at duration minus
assignment start clock rather than at the sum of durations. -/
theorem c1_efficiency_mismatch :
    (runSimulation dbA reqA).toOption.map
        (fun res => res.driverAssignments.map DriverAssignment.efficiency) = some [-285/8]
    ∧ assignOrdersToDrivers [d1] [o1] [r1] (parseTime "08:00") (8 * 60)
        = [⟨1, [1], 480⟩]
    ∧ specTotalMinutes [o1] [r1] d1 ⟨1, [1], 480⟩ = 30
    ∧ calculateDriverEfficiency d1 (specTotalMinutes [o1] [r1] d1 ⟨1, [1], 480⟩) = 275/8
    ∧ ((-285 : ℚ)/8 ≠ 275/8) := by
  decide

end RatEvalC1

/-! ### C10: profit decomposition -/

/-- The value sum distributes over append. -/
theorem ordersValueSum_append (orders : List Order) (l1 l2 : List ℕ) :
    ordersValueSum orders (l1 ++ l2) = ordersValueSum orders l1 + ordersValueSum orders l2 := by
  simp [ordersValueSum]

/-- One replayed order adds its value to the profit balance. -/
theorem processOrder_balance (orders : List Order) (routes : List Route) (driver : Driver)
    (aStart : ℚ) (st : OrderStepState) (oid : ℕ) (v : ℚ)
    (h : st.totals.totalProfit
      = v + st.totals.totalBonuses - st.totals.totalPenalties - st.totals.totalFuelCost) :
    (processOrder orders routes driver aStart st oid).totals.totalProfit
      = (v + ((orders.find? (fun o => o.id == oid)).getD default).valueRs)
        + (processOrder orders routes driver aStart st oid).totals.totalBonuses
        - (processOrder orders routes driver aStart st oid).totals.totalPenalties
        - (processOrder orders routes driver aStart st oid).totals.totalFuelCost := by
  by_cases h1 : calculateDeliveryTime
      ((routes.find? (fun r =>
        r.id == ((orders.find? (fun o => o.id == oid)).getD default).routeId)).getD default)
      driver (aStart + st.driverTotalTime)
    ≤ parseTime ((orders.find? (fun o => o.id == oid)).getD default).deliveryTime + 10 <;>
    by_cases h2 : ((orders.find? (fun o => o.id == oid)).getD default).valueRs > 1000 <;>
      simp [processOrder, h1, h2] <;> linarith

/-- The inner order loop adds the placed values to the profit balance. -/
theorem processOrder_foldl_balance (orders : List Order) (routes : List Route)
    (driver : Driver) (aStart : ℚ) (l : List ℕ) :
    ∀ (st : OrderStepState) (v : ℚ),
      st.totals.totalProfit
        = v + st.totals.totalBonuses - st.totals.totalPenalties - st.totals.totalFuelCost →
      (l.foldl (processOrder orders routes driver aStart) st).totals.totalProfit
        = (v + ordersValueSum orders l)
          + (l.foldl (processOrder orders routes driver aStart) st).totals.totalBonuses
          - (l.foldl (processOrder orders routes driver aStart) st).totals.totalPenalties
          - (l.foldl (processOrder orders routes driver aStart) st).totals.totalFuelCost := by
  induction l with
  | nil =>
    intro st v h
    simpa [ordersValueSum] using h
  | cons oid l ih =>
    intro st v h
    rw [List.foldl_cons]
    have hstep := processOrder_balance orders routes driver aStart st oid v h
    have h2 := ih (processOrder orders routes driver aStart st oid)
      (v + ((orders.find? (fun o => o.id == oid)).getD default).valueRs) hstep
    have e : ordersValueSum orders (oid :: l)
        = ((orders.find? (fun o => o.id == oid)).getD default).valueRs
          + ordersValueSum orders l := by
      simp [ordersValueSum]
    rw [e, show v + (((orders.find? (fun o => o.id == oid)).getD default).valueRs
      + ordersValueSum orders l)
        = (v + ((orders.find? (fun o => o.id == oid)).getD default).valueRs)
          + ordersValueSum orders l from by ring]
    exact h2

/-- The outer assignment loop adds every placed value to the profit
balance; the efficiency bookkeeping does not disturb it. -/
theorem processAssignment_foldl_balance (drivers : List Driver) (orders : List Order)
    (routes : List Route) (asg : List Assignment) :
    ∀ (st : ProcState) (v : ℚ),
      st.totals.totalProfit
        = v + st.totals.totalBonuses - st.totals.totalPenalties - st.totals.totalFuelCost →
      (asg.foldl (processAssignment drivers orders routes) st).totals.totalProfit
        = (v + ordersValueSum orders (assignedIds asg))
          + (asg.foldl (processAssignment drivers orders routes) st).totals.totalBonuses
          - (asg.foldl (processAssignment drivers orders routes) st).totals.totalPenalties
          - (asg.foldl (processAssignment drivers orders routes) st).totals.totalFuelCost := by
  induction asg with
  | nil =>
    intro st v h
    simpa [assignedIds, ordersValueSum] using h
  | cons a asg ih =>
    intro st v h
    rw [List.foldl_cons]
    have hinner := processOrder_foldl_balance orders routes
      ((drivers.find? (fun d => d.id == a.driverId)).getD default) a.startTime a.orderIds
      ⟨st.totals, st.orderResults, [], 0⟩ v h
    have hstep : (processAssignment drivers orders routes st a).totals.totalProfit
        = (v + ordersValueSum orders a.orderIds)
          + (processAssignment drivers orders routes st a).totals.totalBonuses
          - (processAssignment drivers orders routes st a).totals.totalPenalties
          - (processAssignment drivers orders routes st a).totals.totalFuelCost := by
      simp only [processAssignment]
      exact hinner
    have h2 := ih (processAssignment drivers orders routes st a)
      (v + ordersValueSum orders a.orderIds) hstep
    rw [assignedIds_cons, ordersValueSum_append,
      show v + (ordersValueSum orders a.orderIds + ordersValueSum orders (assignedIds asg))
        = (v + ordersValueSum orders a.orderIds) + ordersValueSum orders (assignedIds asg)
        from by ring]
    exact h2

/-- C10: on every successful run the returned totalProfit equals the summed
value of the placed orders plus the returned bonuses minus the returned
penalties minus the returned fuel cost. -/
theorem c10_totalProfit_decomposition (db : Database) (req : SimulationRequest)
    (res : SimulationResult) (hrun : runSimulation db req = Except.ok res) :
    res.totalProfit
      = ordersValueSum (getAvailableOrders db.orders req.routeIds)
          (assignedIds (assignOrdersToDrivers (getAvailableDrivers db.drivers req.driverIds)
            (getAvailableOrders db.orders req.routeIds) (getAvailableRoutes db.routes)
            (parseTime req.routeStartTime) (req.maxHours * 60)))
        + res.bonuses - res.penalties - res.fuelCost := by
  unfold runSimulation at hrun
  by_cases hd : (getAvailableDrivers db.drivers req.driverIds).length = 0
  · rw [if_pos hd] at hrun
    exact absurd hrun (by simp)
  rw [if_neg hd] at hrun
  by_cases ho : (getAvailableOrders db.orders req.routeIds).length = 0
  · rw [if_pos ho] at hrun
    exact absurd hrun (by simp)
  rw [if_neg ho] at hrun
  rw [Except.ok.injEq] at hrun
  subst hrun
  have hbal := processAssignment_foldl_balance (getAvailableDrivers db.drivers req.driverIds)
    (getAvailableOrders db.orders req.routeIds) (getAvailableRoutes db.routes)
    (assignOrdersToDrivers (getAvailableDrivers db.drivers req.driverIds)
      (getAvailableOrders db.orders req.routeIds) (getAvailableRoutes db.routes)
      (parseTime req.routeStartTime) (req.maxHours * 60))
    initProc 0 (by simp [initProc, initTotals])
  simpa using hbal

/-! ### C7: dropped orders leave no trace -/

/-- The inner order loop accumulates exactly the replayed ids. -/
theorem processOrder_foldl_assignedOrders (orders : List Order) (routes : List Route)
    (driver : Driver) (aStart : ℚ) (l : List ℕ) :
    ∀ st : OrderStepState,
      (l.foldl (processOrder orders routes driver aStart) st).assignedOrders
        = st.assignedOrders ++ l := by
  induction l with
  | nil => intro st; simp
  | cons oid l ih =>
    intro st
    rw [List.foldl_cons, ih]
    simp [processOrder]

/-- Every row the inner order loop appends is keyed by a replayed id. -/
theorem processOrder_foldl_results_mem (orders : List Order) (routes : List Route)
    (driver : Driver) (aStart : ℚ) (l : List ℕ) :
    ∀ (st : OrderStepState) (r : OrderResult),
      r ∈ (l.foldl (processOrder orders routes driver aStart) st).orderResults →
        r ∈ st.orderResults
        ∨ ∃ oid ∈ l, r.orderId = ((orders.find? (fun o => o.id == oid)).getD default).orderId := by
  induction l with
  | nil => intro st r h; exact Or.inl h
  | cons oid l ih =>
    intro st r h
    rw [List.foldl_cons] at h
    rcases ih _ r h with h' | ⟨oid', hmem, heq⟩
    · simp only [processOrder] at h'
      rcases List.mem_append.mp h' with h'' | h''
      · exact Or.inl h''
      · right
        refine ⟨oid, List.mem_cons_self oid l, ?_⟩
        rw [List.mem_singleton.mp h'']
    · exact Or.inr ⟨oid', List.mem_cons_of_mem oid hmem, heq⟩

/-- Every row the outer loop accumulates is keyed by an assigned id. -/
theorem processAssignment_foldl_results_mem (drivers : List Driver) (orders : List Order)
    (routes : List Route) (asg : List Assignment) :
    ∀ (st : ProcState) (r : OrderResult),
      r ∈ (asg.foldl (processAssignment drivers orders routes) st).orderResults →
        r ∈ st.orderResults
        ∨ ∃ oid ∈ assignedIds asg,
            r.orderId = ((orders.find? (fun o => o.id == oid)).getD default).orderId := by
  induction asg with
  | nil => intro st r h; exact Or.inl h
  | cons a asg ih =>
    intro st r h
    rw [List.foldl_cons] at h
    rcases ih _ r h with h' | ⟨oid, hmem, heq⟩
    · have hor : (processAssignment drivers orders routes st a).orderResults
          = (a.orderIds.foldl (processOrder orders routes
              ((drivers.find? (fun d => d.id == a.driverId)).getD default) a.startTime)
            ⟨st.totals, st.orderResults, [], 0⟩).orderResults := by
        simp only [processAssignment]
      rw [hor] at h'
      rcases processOrder_foldl_results_mem orders routes _ _ a.orderIds _ r h' with h'' | ⟨oid, hmem, heq⟩
      · exact Or.inl h''
      · right
        refine ⟨oid, ?_, heq⟩
        rw [assignedIds_cons]
        exact List.mem_append.mpr (Or.inl hmem)
    · right
      refine ⟨oid, ?_, heq⟩
      rw [assignedIds_cons]
      exact List.mem_append.mpr (Or.inr hmem)

/-- Every driver row the outer loop accumulates records the order ids of
one assignment. -/
theorem processAssignment_foldl_assignments_mem (drivers : List Driver) (orders : List Order)
    (routes : List Route) (asg : List Assignment) :
    ∀ (st : ProcState) (da : DriverAssignment),
      da ∈ (asg.foldl (processAssignment drivers orders routes) st).driverAssignments →
        da ∈ st.driverAssignments ∨ ∃ a ∈ asg, da.assignedOrders = a.orderIds := by
  induction asg with
  | nil => intro st da h; exact Or.inl h
  | cons a asg ih =>
    intro st da h
    rw [List.foldl_cons] at h
    rcases ih _ da h with h' | ⟨a', hmem, heq⟩
    · simp only [processAssignment] at h'
      rcases List.mem_append.mp h' with h'' | h''
      · exact Or.inl h''
      · right
        refine ⟨a, List.mem_cons_self a asg, ?_⟩
        rw [List.mem_singleton.mp h'']
        exact processOrder_foldl_assignedOrders orders routes _ _ a.orderIds _
    · exact Or.inr ⟨a', List.mem_cons_of_mem a hmem, heq⟩

/-- A filter that keeps everything a search predicate accepts does not
change the search result. -/
theorem find?_filter_of_imp {α : Type} (l : List α) (p q : α → Bool)
    (h : ∀ x, p x = true → q x = true) : (l.filter q).find? p = l.find? p := by
  induction l with
  | nil => rfl
  | cons x l ih =>
    by_cases hq : q x = true
    · rw [List.filter_cons_of_pos hq]
      by_cases hp : p x = true
      · rw [List.find?_cons_of_pos _ hp, List.find?_cons_of_pos _ hp]
      · rw [List.find?_cons_of_neg _ (by simpa using hp),
          List.find?_cons_of_neg _ (by simpa using hp), ih]
    · have hp : ¬ p x = true := fun hpx => hq (h x hpx)
      rw [List.filter_cons_of_neg (by simpa using hq),
        List.find?_cons_of_neg _ (by simpa using hp), ih]

/-- Replaying one id reads the order table only through the lookup of that
id. -/
theorem processOrder_congr_table (orders1 orders2 : List Order) (routes : List Route)
    (driver : Driver) (aStart : ℚ) (st : OrderStepState) (oid : ℕ)
    (h : orders1.find? (fun o => o.id == oid) = orders2.find? (fun o => o.id == oid)) :
    processOrder orders1 routes driver aStart st oid
      = processOrder orders2 routes driver aStart st oid := by
  simp only [processOrder, h]

/-- The inner order loop reads the table only through the replayed ids. -/
theorem processOrder_foldl_congr_table (orders1 orders2 : List Order) (routes : List Route)
    (driver : Driver) (aStart : ℚ) (l : List ℕ)
    (h : ∀ oid ∈ l, orders1.find? (fun o => o.id == oid)
      = orders2.find? (fun o => o.id == oid)) :
    ∀ st : OrderStepState,
      l.foldl (processOrder orders1 routes driver aStart) st
        = l.foldl (processOrder orders2 routes driver aStart) st := by
  induction l with
  | nil => intro st; rfl
  | cons oid l ih =>
    intro st
    rw [List.foldl_cons, List.foldl_cons,
      processOrder_congr_table orders1 orders2 routes driver aStart st oid
        (h oid (List.mem_cons_self oid l))]
    exact ih (fun x hx => h x (List.mem_cons_of_mem oid hx)) _

/-- The outer loop reads the order table only through the assigned ids. -/
theorem processAssignment_foldl_congr_table (drivers : List Driver)
    (orders1 orders2 : List Order) (routes : List Route) (asg : List Assignment)
    (h : ∀ oid ∈ assignedIds asg, orders1.find? (fun o => o.id == oid)
      = orders2.find? (fun o => o.id == oid)) :
    ∀ st : ProcState,
      asg.foldl (processAssignment drivers orders1 routes) st
        = asg.foldl (processAssignment drivers orders2 routes) st := by
  induction asg with
  | nil => intro st; rfl
  | cons a asg ih =>
    intro st
    rw [List.foldl_cons, List.foldl_cons]
    have hstep : processAssignment drivers orders1 routes st a
        = processAssignment drivers orders2 routes st a := by
      simp only [processAssignment]
      rw [processOrder_foldl_congr_table orders1 orders2 routes _ _ a.orderIds
        (fun oid hoid => h oid (by rw [assignedIds_cons]; exact List.mem_append.mpr (Or.inl hoid)))]
    rw [hstep]
    exact ih (fun oid hoid => h oid (by rw [assignedIds_cons]; exact List.mem_append.mpr (Or.inr hoid))) _

/-- C7: an order whose capacity check fails at its position appears in no
assignment, in no driver row and in no order-result row, and the whole
replay phase is unchanged when the order is removed from the order table,
so it contributes to none of the accumulated totals. -/
theorem c7_dropped_order (drivers : List Driver) (routes : List Route)
    (startTime maxMinutes : ℚ) (pre post : List Order) (o : Order)
    (hids : ((pre ++ o :: post).map Order.id).Nodup)
    (hoids : ((pre ++ o :: post).map Order.orderId).Nodup)
    (hfail : ¬ placesOrder drivers routes startTime maxMinutes pre o) :
    o.id ∉ assignedIds (assignOrdersToDrivers drivers (pre ++ o :: post) routes
        startTime maxMinutes)
    ∧ (∀ da ∈ ((assignOrdersToDrivers drivers (pre ++ o :: post) routes startTime
          maxMinutes).foldl
        (processAssignment drivers (pre ++ o :: post) routes) initProc).driverAssignments,
        o.id ∉ da.assignedOrders)
    ∧ (∀ r ∈ ((assignOrdersToDrivers drivers (pre ++ o :: post) routes startTime
          maxMinutes).foldl
        (processAssignment drivers (pre ++ o :: post) routes) initProc).orderResults,
        r.orderId ≠ o.orderId)
    ∧ ((assignOrdersToDrivers drivers (pre ++ o :: post) routes startTime maxMinutes).foldl
        (processAssignment drivers
          ((pre ++ o :: post).filter (fun x => x.id != o.id)) routes) initProc
      = (assignOrdersToDrivers drivers (pre ++ o :: post) routes startTime maxMinutes).foldl
        (processAssignment drivers (pre ++ o :: post) routes) initProc) := by
  have hplaced : ∀ x, x ∈ assignedIds (assignOrdersToDrivers drivers (pre ++ o :: post)
      routes startTime maxMinutes)
      ↔ x ∈ placedIds drivers routes startTime maxMinutes (pre ++ o :: post) 0 startTime := by
    intro x
    unfold assignOrdersToDrivers
    rw [mem_assignedIds_foldl]
    simp [assignedIds]
  have hsplit : placedIds drivers routes startTime maxMinutes (pre ++ o :: post) 0 startTime
      = placedIds drivers routes startTime maxMinutes pre 0 startTime
        ++ placedIds drivers routes startTime maxMinutes post (pre.length + 1)
            (clockAfter drivers routes startTime maxMinutes pre 0 startTime) := by
    rw [placedIds_append]
    congr 1
    simp only [placedIds]
    rw [if_neg (by simpa [placesOrder] using hfail), Nat.zero_add]
  have hnotpre : o.id ∉ (pre.map Order.id) := by
    intro hmem
    rw [List.map_append, List.nodup_append] at hids
    exact hids.2.2 hmem (by simp)
  have hnotpost : o.id ∉ (post.map Order.id) := by
    intro hmem
    rw [List.map_append, List.nodup_append] at hids
    have := hids.2.1
    rw [List.map_cons, List.nodup_cons] at this
    exact this.1 hmem
  have h1 : o.id ∉ assignedIds (assignOrdersToDrivers drivers (pre ++ o :: post) routes
      startTime maxMinutes) := by
    rw [hplaced, hsplit]
    intro hmem
    rcases List.mem_append.mp hmem with hmem | hmem
    · exact hnotpre (placedIds_subset drivers routes startTime maxMinutes pre _ _ _ hmem)
    · exact hnotpost (placedIds_subset drivers routes startTime maxMinutes post _ _ _ hmem)
  have hid_ne : ∀ oid, oid ∈ assignedIds (assignOrdersToDrivers drivers (pre ++ o :: post)
      routes startTime maxMinutes) → oid ≠ o.id := by
    intro oid hmem heq
    exact h1 (heq ▸ hmem)
  refine ⟨h1, ?_, ?_, ?_⟩
  · intro da hda hmem
    rcases processAssignment_foldl_assignments_mem drivers (pre ++ o :: post) routes _ _ da hda
      with h' | ⟨a, ha, heq⟩
    · simp [initProc] at h'
    · rw [heq] at hmem
      exact h1 (mem_assignedIds_of_mem hmem ha)
  · intro r hr heq
    rcases processAssignment_foldl_results_mem drivers (pre ++ o :: post) routes _ _ r hr
      with h' | ⟨oid, hmem, hoeq⟩
    · simp [initProc] at h'
    · have hoidne : oid ≠ o.id := hid_ne oid hmem
      have hin : oid ∈ (pre ++ o :: post).map Order.id := by
        apply placedIds_subset drivers routes startTime maxMinutes (pre ++ o :: post) 0 startTime
        exact (hplaced oid).mp hmem
      obtain ⟨o2, ho2mem, ho2id⟩ := List.mem_map.mp hin
      have hfind : ((pre ++ o :: post).find? (fun x => x.id == oid)).isSome :=
        List.find?_isSome.mpr ⟨o2, ho2mem, by simp [ho2id]⟩
      obtain ⟨o3, ho3⟩ := Option.isSome_iff_exists.mp hfind
      have ho3mem : o3 ∈ pre ++ o :: post := List.mem_of_find?_eq_some ho3
      have ho3id : o3.id = oid := by simpa using List.find?_some ho3
      have ho3ne : o3 ≠ o := by
        intro hcontra
        exact hoidne (by rw [← ho3id, hcontra])
      have : o3.orderId ≠ o.orderId := by
        intro hcontra
        exact ho3ne (List.inj_on_of_nodup_map hoids ho3mem (by simp) hcontra)
      rw [hoeq, ho3] at heq
      exact this (by simpa using heq)
  · apply processAssignment_foldl_congr_table
    intro oid hmem
    apply find?_filter_of_imp
    intro x hx
    have hxid : x.id = oid := by simpa using hx
    simp [hxid]
    intro hcontra
    exact hid_ne oid hmem (by rw [← hcontra])

section RatEvalC7

attribute [local semireducible] Rat.add Rat.mul Rat.sub Rat.inv Rat.ofScientific

/-- C7 witness: with a one-hour window the second order of the scenario
fails its capacity check; it is in no assignment and removing it from the
order table leaves the whole replay state unchanged. -/
theorem c7_witness :
    oH.id ∉ assignedIds (assignOrdersToDrivers [d1] [o1, oH] [r1, rH] 480 60)
    ∧ ((assignOrdersToDrivers [d1] [o1, oH] [r1, rH] 480 60).foldl
        (processAssignment [d1] ([o1, oH].filter (fun x => x.id != oH.id)) [r1, rH]) initProc
      = (assignOrdersToDrivers [d1] [o1, oH] [r1, rH] 480 60).foldl
        (processAssignment [d1] [o1, oH] [r1, rH]) initProc) := by
  have h := c7_dropped_order [d1] [r1, rH] 480 60 [o1] [] oH
    (by decide) (by decide) (by decide)
  exact ⟨h.1, h.2.2.2⟩

end RatEvalC7

/-! ### C3: the per-order cost model -/

/-- The delivery-time model ignores its clock argument. -/
theorem calculateDeliveryTime_clock_free (route : Route) (driver : Driver) (t : ℚ) :
    calculateDeliveryTime route driver t = calculateDeliveryTime route driver 0 := rfl

/-- An element fetched cyclically from a nonempty list is in the list. -/
theorem getD_mod_mem {α : Type} [Inhabited α] (l : List α) (h : l ≠ []) (i : ℕ) :
    l.getD (i % l.length) default ∈ l := by
  have hlen : 0 < l.length := List.length_pos.mpr h
  have hlt : i % l.length < l.length := Nat.mod_lt _ hlen
  rw [List.getD_eq_getElem l default hlt]
  exact List.getElem_mem hlt

/-- Updating an assignment list introduces only the given driver id. -/
theorem addOrder_driverIds (did oid : ℕ) (clock : ℚ) (as : List Assignment) :
    ∀ a ∈ addOrderToAssignments did oid clock as,
      a.driverId = did ∨ ∃ b ∈ as, a.driverId = b.driverId := by
  induction as with
  | nil =>
    intro a ha
    simp [addOrderToAssignments] at ha
    left
    rw [ha]
  | cons b as ih =>
    intro a ha
    simp only [addOrderToAssignments] at ha
    by_cases h : b.driverId = did
    · rw [if_pos h] at ha
      rcases List.mem_cons.mp ha with ha | ha
      · left
        rw [ha]
        exact h
      · exact Or.inr ⟨a, List.mem_cons_of_mem b ha, rfl⟩
    · rw [if_neg h] at ha
      rcases List.mem_cons.mp ha with ha | ha
      · exact Or.inr ⟨b, List.mem_cons_self b as, by rw [ha]⟩
      · rcases ih a ha with h' | ⟨c, hc, h'⟩
        · exact Or.inl h'
        · exact Or.inr ⟨c, List.mem_cons_of_mem b hc, h'⟩

/-- Every assignment the engine creates carries the id of a driver of the
nonempty driver list. -/
theorem assign_foldl_driverIds (drivers : List Driver) (routes : List Route)
    (startTime maxMinutes : ℚ) (hne : drivers ≠ []) (os : List Order) :
    ∀ (i : ℕ) (clock : ℚ) (acc : List Assignment),
      (∀ a ∈ acc, ∃ d ∈ drivers, a.driverId = d.id) →
      ∀ a ∈ (os.foldl (assignStep drivers routes startTime maxMinutes) (i, clock, acc)).2.2,
        ∃ d ∈ drivers, a.driverId = d.id := by
  induction os with
  | nil => intro i clock acc hacc; exact hacc
  | cons o os ih =>
    intro i clock acc hacc
    rw [List.foldl_cons]
    simp only [assignStep]
    by_cases hc : clock + calculateDeliveryTime
        ((routes.find? (fun r => r.id == o.routeId)).getD default)
        (drivers.getD (i % drivers.length) default) clock ≤ startTime + maxMinutes
    · rw [if_pos hc]
      apply ih
      intro a ha
      rcases addOrder_driverIds _ _ _ _ a ha with h' | ⟨b, hb, h'⟩
      · exact ⟨drivers.getD (i % drivers.length) default, getD_mod_mem drivers hne i, h'⟩
      · obtain ⟨d, hdm, hbd⟩ := hacc b hb
        exact ⟨d, hdm, by rw [h', hbd]⟩
    · rw [if_neg hc]
      exact ih _ _ _ hacc

/-- The shape of row the replay appends satisfies the cost-model contract
whenever its order is from the snapshot and its driver from the run. -/
theorem orderResult_row_ok (drivers : List Driver) (orders : List Order)
    (routes : List Route) (driver : Driver) (hd : driver ∈ drivers)
    (o4 : Order) (ho4 : o4 ∈ orders) (t : ℚ) :
    orderResultMatchesCostModel drivers orders routes
      { orderId := o4.orderId
        driverId := driver.id
        routeId := ((routes.find? (fun rt => rt.id == o4.routeId)).getD default).id
        deliveryTime := o4.deliveryTime
        actualTime := formatTime t
        isOnTime := decide (calculateDeliveryTime
            ((routes.find? (fun rt => rt.id == o4.routeId)).getD default) driver 0
          ≤ parseTime o4.deliveryTime + 10)
        penalty := if decide (calculateDeliveryTime
            ((routes.find? (fun rt => rt.id == o4.routeId)).getD default) driver 0
          ≤ parseTime o4.deliveryTime + 10) = true then 0 else 50
        bonus := if (decide (calculateDeliveryTime
            ((routes.find? (fun rt => rt.id == o4.routeId)).getD default) driver 0
          ≤ parseTime o4.deliveryTime + 10) && decide (o4.valueRs > 1000)) = true
          then o4.valueRs * 0.1 else 0
        fuelCost := calculateFuelCost
          ((routes.find? (fun rt => rt.id == o4.routeId)).getD default) } := by
  by_cases hP : calculateDeliveryTime
      ((routes.find? (fun rt => rt.id == o4.routeId)).getD default) driver 0
    ≤ parseTime o4.deliveryTime + 10 <;>
    by_cases hv : o4.valueRs > 1000
  · exact ⟨driver, hd, rfl, o4, ho4, rfl, rfl, rfl,
      fun hfalse => absurd hfalse (by simp [hP]),
      fun ht hv2 => by constructor <;> simp [hP, hv],
      fun ht hv2 => absurd hv hv2⟩
  · exact ⟨driver, hd, rfl, o4, ho4, rfl, rfl, rfl,
      fun hfalse => absurd hfalse (by simp [hP]),
      fun ht hv2 => absurd hv2 hv,
      fun ht hv2 => by constructor <;> simp [hP, hv]⟩
  · exact ⟨driver, hd, rfl, o4, ho4, rfl, rfl, rfl,
      fun hfalse => by constructor <;> simp [hP],
      fun ht hv2 => absurd ht (by simp [hP]),
      fun ht hv2 => absurd ht (by simp [hP])⟩
  · exact ⟨driver, hd, rfl, o4, ho4, rfl, rfl, rfl,
      fun hfalse => by constructor <;> simp [hP],
      fun ht hv2 => absurd ht (by simp [hP]),
      fun ht hv2 => absurd ht (by simp [hP])⟩

/-- Every row the inner order loop appends satisfies the cost-model
contract when the driver is from the run and the ids resolve in the order
table. -/
theorem processOrder_foldl_results_ok (drivers : List Driver) (orders : List Order)
    (routes : List Route) (driver : Driver) (hd : driver ∈ drivers) (aStart : ℚ)
    (l : List ℕ) (hl : ∀ oid ∈ l, ∃ o ∈ orders, o.id = oid) :
    ∀ st : OrderStepState,
      (∀ r ∈ st.orderResults, orderResultMatchesCostModel drivers orders routes r) →
      ∀ r ∈ (l.foldl (processOrder orders routes driver aStart) st).orderResults,
        orderResultMatchesCostModel drivers orders routes r := by
  induction l with
  | nil => intro st hst r hr; exact hst r hr
  | cons oid l ih =>
    intro st hst r hr
    rw [List.foldl_cons] at hr
    refine ih (fun x hx => hl x (List.mem_cons_of_mem oid hx)) _ ?_ r hr
    intro r' hr'
    simp only [processOrder] at hr'
    rcases List.mem_append.mp hr' with h' | h'
    · exact hst r' h'
    · rw [List.mem_singleton.mp h']
      obtain ⟨o2, ho2, ho2id⟩ := hl oid (List.mem_cons_self oid l)
      have hfind : (orders.find? (fun o => o.id == oid)).isSome :=
        List.find?_isSome.mpr ⟨o2, ho2, by simp [ho2id]⟩
      obtain ⟨o3, ho3⟩ := Option.isSome_iff_exists.mp hfind
      have ho3mem : (orders.find? (fun o => o.id == oid)).getD default ∈ orders := by
        rw [ho3]
        exact List.mem_of_find?_eq_some ho3
      rw [calculateDeliveryTime_clock_free]
      exact orderResult_row_ok drivers orders routes driver hd
        ((orders.find? (fun o => o.id == oid)).getD default) ho3mem _

/-- Every row the outer loop accumulates satisfies the cost-model
contract. -/
theorem processAssignment_foldl_results_ok (drivers : List Driver) (orders : List Order)
    (routes : List Route) (asg : List Assignment)
    (hdr : ∀ a ∈ asg, ∃ d ∈ drivers, a.driverId = d.id)
    (hoid : ∀ oid ∈ assignedIds asg, ∃ o ∈ orders, o.id = oid) :
    ∀ st : ProcState,
      (∀ r ∈ st.orderResults, orderResultMatchesCostModel drivers orders routes r) →
      ∀ r ∈ (asg.foldl (processAssignment drivers orders routes) st).orderResults,
        orderResultMatchesCostModel drivers orders routes r := by
  induction asg with
  | nil => intro st hst r hr; exact hst r hr
  | cons a asg ih =>
    intro st hst r hr
    rw [List.foldl_cons] at hr
    refine ih (fun b hb => hdr b (List.mem_cons_of_mem a hb))
      (fun oid ho => hoid oid (by
        rw [assignedIds_cons]
        exact List.mem_append.mpr (Or.inr ho))) _ ?_ r hr
    intro r' hr'
    have hor : (processAssignment drivers orders routes st a).orderResults
        = (a.orderIds.foldl (processOrder orders routes
            ((drivers.find? (fun d => d.id == a.driverId)).getD default) a.startTime)
          ⟨st.totals, st.orderResults, [], 0⟩).orderResults := by
      simp only [processAssignment]
    rw [hor] at hr'
    obtain ⟨d0, hd0, hid0⟩ := hdr a (List.mem_cons_self a asg)
    have hfindd : (drivers.find? (fun d => d.id == a.driverId)).isSome :=
      List.find?_isSome.mpr ⟨d0, hd0, by simp [hid0]⟩
    obtain ⟨dd, hdd⟩ := Option.isSome_iff_exists.mp hfindd
    have hdmem : (drivers.find? (fun d => d.id == a.driverId)).getD default ∈ drivers := by
      rw [hdd]
      exact List.mem_of_find?_eq_some hdd
    exact processOrder_foldl_results_ok drivers orders routes _ hdmem a.startTime a.orderIds
      (fun oid ho => hoid oid (by
        rw [assignedIds_cons]
        exact List.mem_append.mpr (Or.inl ho))) _ hst r' hr'

/-- C3: every order-result row of a successful run satisfies the
cost-model contract: the on-time flag is the comparison of the clock-free
duration against the parsed expected time plus the 10-minute grace, a late
row carries penalty 50 and bonus 0, an on-time row above 1000 rupees
carries bonus 0.1 times the value and penalty 0, and any other on-time row
carries penalty 0 and bonus 0. -/
theorem c3_cost_model (db : Database) (req : SimulationRequest) (res : SimulationResult)
    (hrun : runSimulation db req = Except.ok res) :
    ∀ r ∈ res.orderResults,
      orderResultMatchesCostModel (getAvailableDrivers db.drivers req.driverIds)
        (getAvailableOrders db.orders req.routeIds) (getAvailableRoutes db.routes) r := by
  unfold runSimulation at hrun
  by_cases hdz : (getAvailableDrivers db.drivers req.driverIds).length = 0
  · rw [if_pos hdz] at hrun
    exact absurd hrun (by simp)
  rw [if_neg hdz] at hrun
  by_cases hoz : (getAvailableOrders db.orders req.routeIds).length = 0
  · rw [if_pos hoz] at hrun
    exact absurd hrun (by simp)
  rw [if_neg hoz] at hrun
  rw [Except.ok.injEq] at hrun
  subst hrun
  intro r hr
  have hne : getAvailableDrivers db.drivers req.driverIds ≠ [] := by
    intro hcontra
    exact hdz (by rw [hcontra]; rfl)
  refine processAssignment_foldl_results_ok _ _ _ _ ?_ ?_ initProc (by simp [initProc]) r hr
  · intro a ha
    unfold assignOrdersToDrivers at ha
    exact assign_foldl_driverIds _ _ _ _ hne _ 0 _ [] (by simp) a ha
  · intro oid hoid2
    unfold assignOrdersToDrivers at hoid2
    rw [mem_assignedIds_foldl] at hoid2
    have hplc : oid ∈ placedIds (getAvailableDrivers db.drivers req.driverIds)
        (getAvailableRoutes db.routes) (parseTime req.routeStartTime) (req.maxHours * 60)
        (getAvailableOrders db.orders req.routeIds) 0 (parseTime req.routeStartTime) := by
      rcases hoid2 with h | h
      · simp [assignedIds] at h
      · exact h
    have hin := placedIds_subset _ _ _ _ _ _ _ _ hplc
    obtain ⟨o2, ho2, ho2id⟩ := List.mem_map.mp hin
    exact ⟨o2, ho2, ho2id⟩

section RatEvalC3

attribute [local semireducible] Rat.add Rat.mul Rat.sub Rat.inv Rat.ofScientific

/-- C3 witness: the contract at the single row of the one-driver
one-order run. -/
theorem c3_witness :
    orderResultMatchesCostModel (getAvailableDrivers dbA.drivers reqA.driverIds)
      (getAvailableOrders dbA.orders reqA.routeIds) (getAvailableRoutes dbA.routes)
      ⟨"O1", 1, 1, "09:00", "00:30", true, 0, 120, 50⟩ :=
  c3_cost_model dbA reqA (okOr (runSimulation dbA reqA)) (by decide)
    ⟨"O1", 1, 1, "09:00", "00:30", true, 0, 120, 50⟩ (by decide)

end RatEvalC3

section RatEvalC10

attribute [local semireducible] Rat.add Rat.mul Rat.sub Rat.inv Rat.ofScientific

/-- C10 witness: the decomposition at the one-driver one-order scenario. -/
theorem c10_witness :
    (okOr (runSimulation dbA reqA)).totalProfit
      = ordersValueSum (getAvailableOrders dbA.orders reqA.routeIds)
          (assignedIds (assignOrdersToDrivers (getAvailableDrivers dbA.drivers reqA.driverIds)
            (getAvailableOrders dbA.orders reqA.routeIds) (getAvailableRoutes dbA.routes)
            (parseTime reqA.routeStartTime) (reqA.maxHours * 60)))
        + (okOr (runSimulation dbA reqA)).bonuses - (okOr (runSimulation dbA reqA)).penalties
        - (okOr (runSimulation dbA reqA)).fuelCost :=
  c10_totalProfit_decomposition dbA reqA (okOr (runSimulation dbA reqA)) (by decide)

end RatEvalC10

end GreenCart
